import Mathlib

/-!
Shallow embedding of `src/handparser.py` (class `PokerStarsHand`).

The regular-expression layer is not modelled character-by-character: each
parsing stage is embedded as a function of the capture groups that the
corresponding pattern produces (an `Option` when the pattern may fail to
match).  Structural facts that the pattern forces on its groups (e.g. the
header pattern only matches when the room token is literally `PokerStars`)
appear as hypotheses of the theorems.  The object's `__dict__` is modelled
as an insertion-ordered association list, matching Python attribute
semantics (update in place, append when new).
-/

namespace HandParser

/-- Drop leading whitespace characters from a character list. -/
def dropLeadingWS : List Char → List Char
  | [] => []
  | c :: cs => if c.isWhitespace then dropLeadingWS cs else c :: cs

/-- Python `str.strip()` (model: ASCII whitespace, which covers the
whitespace occurring in hand histories). -/
def pyStrip (s : String) : String :=
  ⟨dropLeadingWS ((dropLeadingWS s.data.reverse).reverse)⟩

/-- Split a character list on a separator character (semantics of
`str.split(sep)`: `n` separators yield `n + 1` pieces). -/
def splitOnChar (sep : Char) : List Char → List (List Char)
  | [] => [[]]
  | c :: cs =>
    let r := splitOnChar sep cs
    if c = sep then [] :: r
    else
      match r with
      | [] => [[c]]
      | g :: gs => (c :: g) :: gs

/-- Python `str.splitlines()` restricted to `\n` separators, the only line
separator present in the hand-history text handled by the source. -/
def pySplitlines (s : String) : List String :=
  (splitOnChar '\n' s.data).map (fun g => ⟨g⟩)

/-- Python `str.split()` with no argument: split on whitespace runs and
drop empty pieces (the board card list is separated by single spaces). -/
def pySplit (s : String) : List String :=
  ((splitOnChar ' ' s.data).map (fun g => (⟨g⟩ : String))).filter (fun t => t ≠ "")

/-- All characters of a nonempty string are digits. -/
def allDigits (cs : List Char) : Bool := cs.length > 0 && cs.all Char.isDigit

/-- The natural number denoted by a digit string. -/
def natOfDigits (cs : List Char) : Nat :=
  cs.foldl (fun n c => n * 10 + (c.toNat - '0'.toNat)) 0

/-- Model of a `datetime` value produced by `datetime.strptime` and then
localized by `ET.localize` (the `US/Eastern` tag is a constant and is not
repeated in the value). -/
structure PyDateTime where
  year : Nat
  month : Nat
  day : Nat
  hour : Nat
  minute : Nat
  second : Nat
deriving DecidableEq, Repr

/-- Model of `datetime.strptime(s, '%Y/%m/%d %H:%M:%S')` (collaborator
library): a recognizer for the fixed format used by `date_format`.
Month-length calendar refinements are omitted. -/
def pyStrptime (s : String) : Option PyDateTime :=
  match splitOnChar ' ' s.data with
  | [d, t] =>
    match splitOnChar '/' d, splitOnChar ':' t with
    | [y, mo, da], [hh, mi, se] =>
      if allDigits y && allDigits mo && allDigits da &&
         allDigits hh && allDigits mi && allDigits se then
        let mon := natOfDigits mo
        let dav := natOfDigits da
        let hv := natOfDigits hh
        let miv := natOfDigits mi
        let sev := natOfDigits se
        if 1 ≤ mon && mon ≤ 12 && 1 ≤ dav && dav ≤ 31 &&
           hv ≤ 23 && miv ≤ 59 && sev ≤ 59 then
          some ⟨natOfDigits y, mon, dav, hv, miv, sev⟩
        else none
      else none
    | _, _ => none
  | _ => none

/-- Model of `decimal.Decimal(s)` (collaborator library): a recognizer for
the literals it accepts, on the subset occurring in hand histories
(optional sign, digits with at most one decimal point, at least one
digit; exponent and NaN forms omitted).  The accepted literal itself is
kept as the value. -/
def pyDecimal (s : String) : Option String :=
  let body := match s.data with
              | c :: rest => if c = '+' ∨ c = '-' then rest else s.data
              | [] => s.data
  if body.all (fun c => c.isDigit || c = '.') &&
     (body.filter (fun c => c = '.')).length ≤ 1 &&
     body.any Char.isDigit then
    some s
  else none

/-- The values stored in the record's attribute dictionary. -/
inductive PyVal where
  | pyNone : PyVal
  | pyBool : Bool → PyVal
  | pyInt : Int → PyVal
  | str : String → PyVal
  | dec : String → PyVal
  | date : PyDateTime → PyVal
  | strTuple : List String → PyVal
deriving DecidableEq, Repr

/-- Python exceptions raised by the modelled code. -/
inductive PyErr where
  | keyError : PyErr
  | valueError : PyErr
  | attributeError : PyErr
deriving DecidableEq, Repr

/-- Lookup in an insertion-ordered association list (Python `__dict__`
read / `getattr`). -/
def lookupAssoc : List (String × PyVal) → String → Option PyVal
  | [], _ => none
  | (k', v) :: rest, k => if k' = k then some v else lookupAssoc rest k

/-- Write in an insertion-ordered association list (Python `setattr`):
update in place when the key exists, append otherwise. -/
def updateAssoc : List (String × PyVal) → String → PyVal → List (String × PyVal)
  | [], k, v => [(k, v)]
  | (k', v') :: rest, k, v =>
    if k' = k then (k, v) :: rest else (k', v') :: updateAssoc rest k v

/-- The `PokerStarsHand` object: its `__dict__` (`vars(self)`), holding
`raw`, the two resolution flags and every parsed field. -/
structure PSHand where
  attrs : List (String × PyVal)
deriving DecidableEq, Repr

/-- Python `getattr(self, k)` on the instance dictionary. -/
def getattrV (h : PSHand) (k : String) : Option PyVal := lookupAssoc h.attrs k

/-- Python `setattr(self, k, v)`. -/
def setattrV (h : PSHand) (k : String) (v : PyVal) : PSHand :=
  ⟨updateAssoc h.attrs k v⟩

/-- Python `delattr(self, k)` (state effect; a missing key would raise
`AttributeError` after the state mutations already performed). -/
def delattrV (h : PSHand) (k : String) : PSHand :=
  ⟨h.attrs.filter (fun p => p.1 ≠ k)⟩

/-- `PokerStarsHand.__init__` with `parse=False`: store the stripped raw
text plus trailing newline, then set both flags to `False`. -/
def initHand (handText : String) : PSHand :=
  ⟨[("raw", PyVal.str (pyStrip handText ++ "\n")),
    ("header_parsed", PyVal.pyBool false),
    ("parsed", PyVal.pyBool false)]⟩

/-- `PokerStarsHand.__setitem__`: clear both flags, then set the
attribute. -/
def setItem (h : PSHand) (k : String) (v : PyVal) : PSHand :=
  setattrV (setattrV (setattrV h "header_parsed" (PyVal.pyBool false))
    "parsed" (PyVal.pyBool false)) k v

/-- `PokerStarsHand.__delitem__`: clear both flags, then delete the
attribute. -/
def delItem (h : PSHand) (k : String) : PSHand :=
  delattrV (setattrV (setattrV h "header_parsed" (PyVal.pyBool false))
    "parsed" (PyVal.pyBool false)) k

/-- Python `name.startswith('_')`: the first character is an
underscore. -/
def startsUnderscore (s : String) : Bool :=
  match s.data with
  | c :: _ => c = '_'
  | [] => false

/-- `PokerStarsHand.keys`: every attribute of `vars(self)` whose name does
not start with an underscore and is not `raw`. -/
def keysOf (h : PSHand) : List String :=
  (h.attrs.map Prod.fst).filter (fun a => ¬ startsUnderscore a ∧ a ≠ "raw")

/-- `PokerStarsHand.__getitem__`: any key except `raw` is read through
`getattr` (raising `AttributeError` when absent); `raw` raises
`KeyError`. -/
def getItem (h : PSHand) (k : String) : Except PyErr PyVal :=
  if k ≠ "raw" then
    match getattrV h k with
    | some v => Except.ok v
    | none => Except.error PyErr.attributeError
  else Except.error PyErr.keyError

/-- A single mapping-interface mutation. -/
inductive Mut where
  | set : String → PyVal → Mut
  | del : String → Mut
deriving DecidableEq, Repr

/-- The key a mutation targets. -/
def mutKey : Mut → String
  | Mut.set k _ => k
  | Mut.del k => k

/-- Apply one mapping-interface mutation. -/
def applyMut (h : PSHand) : Mut → PSHand
  | Mut.set k v => setItem h k v
  | Mut.del k => delItem h k

/-- Apply a sequence of mapping-interface mutations, left to right. -/
def applyMuts (h : PSHand) (ms : List Mut) : PSHand := ms.foldl applyMut h

/-- Both resolution flags of the record are the boolean `False`. -/
def flagsCleared (h : PSHand) : Prop :=
  getattrV h "header_parsed" = some (PyVal.pyBool false) ∧
  getattrV h "parsed" = some (PyVal.pyBool false)

/-- `PokerStarsHand._parse_street` on the optional captured action block
(group 1 of the street pattern; `none` when the street marker is absent):
strip the block, and resolve to `None` when it is empty, otherwise to the
tuple of its lines. -/
def parseStreet (captured : Option String) : Option (List String) :=
  match captured with
  | none => none
  | some s =>
    let actions := pyStrip s
    if actions = "" then none else some (pySplitlines actions)

/-- The four board-derived fields set by `_search_board`. -/
structure BoardFields where
  board : Option (List String)
  flop : Option (List String)
  turn : Option String
  river : Option String
deriving DecidableEq, Repr

/-- `PokerStarsHand._search_board` on the optional captured card list
(group 1 of `_board_pattern`): all four fields start at `None`; on a
match the cards are split and decomposed positionally. -/
def searchBoard (m : Option String) : BoardFields :=
  match m with
  | none => ⟨none, none, none, none⟩
  | some s =>
    let cards := pySplit s
    { board := some cards
      flop := some (cards.take 3)
      turn := if cards.length > 3 then cards.get? 3 else none
      river := if cards.length > 4 then cards.get? 4 else none }

/-- Python `set.add` on the model of a set as a duplicate-free list
(insertion order fixed; the claims only use membership and counts). -/
def setAdd (l : List String) (x : String) : List String :=
  if x ∈ l then l else l ++ [x]

/-- `PokerStarsHand._search_winners` on the lists of pattern matches in
text order (`.search` keeps only the first of each).  A `_winner_pattern`
match carries the collected player's name (group 1); a
`_summary_showdown_pattern` match carries the seat digit (group 1) and
the shown player's name (group 2) — the source adds `match.group(1)`,
the seat digit string, for the summary pattern. -/
def searchWinners (collected : List String) (summary : List (String × String)) :
    List String :=
  let w : List String := []
  let w := match collected.head? with
           | some name => setAdd w name
           | none => w
  match summary.head? with
  | some g => setAdd w g.1
  | none => w

/-- The `_search_winners` stage as a record update: store the winner
tuple on the record. -/
def searchWinnersStage (h : PSHand) (collected : List String)
    (summary : List (String × String)) : PSHand :=
  setattrV h "winners" (PyVal.strTuple (searchWinners collected summary))

/-- Single-position list write (Python `l[i] = x` for an index already
checked to be in range). -/
def setNth {α : Type} : List α → Nat → α → List α
  | [], _, _ => []
  | _ :: xs, 0, a => a :: xs
  | x :: xs, n + 1, a => x :: setNth xs n a

/-- The placeholder name `'Empty Seat %s' % num`. -/
def placeholderName (n : Nat) : String := "Empty Seat " ++ toString n

/-- Python `players[seat - 1] = p` for a seat digit captured by
`_seat_pattern`: a seat in `1..len` writes that slot; the digit `0` makes
index `-1`, which Python wraps to the last slot; a larger seat raises
`IndexError` (`none`). -/
def assignSeat (l : List (String × Int)) (seat : Nat) (p : String × Int) :
    Option (List (String × Int)) :=
  if 1 ≤ seat ∧ seat ≤ l.length then some (setNth l (seat - 1) p)
  else if seat = 0 ∧ 0 < l.length then some (setNth l (l.length - 1) p)
  else none

/-- The loop of `_search_players` over the `_seat_pattern.findall` matches
(each a `(seat, name, stack)` triple in text order). -/
def searchPlayersGo (acc : List (String × Int)) :
    List (Nat × String × Int) → Option (List (String × Int))
  | [] => some acc
  | (n, p) :: rest =>
    match assignSeat acc n p with
    | some acc2 => searchPlayersGo acc2 rest
    | none => none

/-- The initial player list of `_search_players`: placeholder players for
seats `1..max_players`, each with stack `0`. -/
def initSeats (maxPlayers : Nat) : List (String × Int) :=
  (List.range maxPlayers).map (fun i => (placeholderName (i + 1), 0))

/-- `PokerStarsHand._search_players` up to the `OrderedDict` conversion:
the dense seat-indexed list of `(name, stack)` pairs. -/
def searchPlayersList (maxPlayers : Nat) (seats : List (Nat × String × Int)) :
    Option (List (String × Int)) :=
  searchPlayersGo (initSeats maxPlayers) seats

/-- Specification vocabulary: the last declaration for a given seat
number among the seat-pattern matches (later textual declarations
overwrite earlier ones in the loop of `_search_players`). -/
def declaredAt : List (Nat × String × Int) → Nat → Option (String × Int)
  | [], _ => none
  | (n, p) :: rest, m =>
    (declaredAt rest m).or (if n = m then some p else none)

/-- Python `OrderedDict(pairs).items()`, fuel-based recursion (the fuel
is the list length, which bounds the recursion depth): one entry per
distinct key, keys in first-occurrence order, each carrying the last
value bound to it. -/
def pyDictItemsAux : Nat → List (String × Int) → List (String × Int)
  | _, [] => []
  | 0, _ :: _ => []
  | fuel + 1, p :: rest =>
    (p.1, (rest.filter (fun q => q.1 = p.1)).foldl (fun _ q => q.2) p.2) ::
      pyDictItemsAux fuel (rest.filter (fun q => q.1 ≠ p.1))

/-- Python `OrderedDict(pairs).items()`. -/
def pyDictItems (l : List (String × Int)) : List (String × Int) :=
  pyDictItemsAux l.length l

/-- Python `OrderedDict(pairs).keys()`. -/
def pyDictKeys (l : List (String × Int)) : List String :=
  (pyDictItems l).map Prod.fst

/-- Python `list.index` (`none` models the `ValueError` on a missing
element). -/
def pyIndex : List String → String → Option Nat
  | [], _ => none
  | a :: rest, x =>
    if a = x then some 0 else (pyIndex rest x).map (fun k => k + 1)

/-- The `hero_seat` derivation of `_parse_preflop`:
`self.players.keys().index(self.hero) + 1`. -/
def heroSeatCalc (ps : List (String × Int)) (hero : String) : Option Nat :=
  (pyIndex (pyDictKeys ps) hero).map (fun k => k + 1)

/-- The labelled capture groups of `_header_pattern`.  The pattern forces
`poker_room = "PokerStars"`, `game_type = "Tournament"`,
`limit = "No Limit"` and `currency ∈ {USD, EUR}` structurally; `game`,
`sb`, `bb`, `tournament_level` and `date` are free text. -/
structure HeaderMatch where
  poker_room : String
  number : String
  game_type : String
  tournament_ident : String
  buyin : String
  rake : String
  currency : String
  game : String
  limit : String
  tournament_level : String
  sb : String
  bb : String
  date : String
deriving DecidableEq, Repr

/-- The module-level lookup table `POKER_ROOMS`. -/
def POKER_ROOMS : List (String × String) := [("PokerStars", "STARS")]

/-- The module-level lookup table `TYPES`. -/
def TYPES : List (String × String) := [("Tournament", "TOUR")]

/-- The module-level lookup table `GAMES`. -/
def GAMES : List (String × String) := [("Hold'em", "HOLDEM")]

/-- The module-level lookup table `LIMITS`. -/
def LIMITS : List (String × String) := [("No Limit", "NL")]

/-- Python `table[key]` on the enumeration dictionaries (`none` models the
`KeyError` on an unknown token). -/
def lookupTable : List (String × String) → String → Option String
  | [], _ => none
  | (k', v) :: rest, k => if k' = k then some v else lookupTable rest k

/-- `PokerStarsHand.parse_header` on a header match, threading the record
state assignment by assignment in source order.  The returned error (if
any) is the first exception Python would raise: `KeyError` from an
enumeration table miss, `ValueError` from `Decimal`/`strptime`; the state
component is the record as mutated up to that point, since earlier
assignments persist when a later one raises. -/
def parse_header (h : PSHand) (m : HeaderMatch) : PSHand × Option PyErr :=
  match lookupTable POKER_ROOMS m.poker_room with
  | none => (h, some PyErr.keyError)
  | some room =>
  let h := setattrV h "poker_room" (PyVal.str room)
  match lookupTable TYPES m.game_type with
  | none => (h, some PyErr.keyError)
  | some ty =>
  let h := setattrV h "game_type" (PyVal.str ty)
  match pyDecimal m.sb with
  | none => (h, some PyErr.valueError)
  | some sbv =>
  let h := setattrV h "sb" (PyVal.dec sbv)
  match pyDecimal m.bb with
  | none => (h, some PyErr.valueError)
  | some bbv =>
  let h := setattrV h "bb" (PyVal.dec bbv)
  match pyDecimal m.buyin with
  | none => (h, some PyErr.valueError)
  | some biv =>
  let h := setattrV h "buyin" (PyVal.dec biv)
  match pyDecimal m.rake with
  | none => (h, some PyErr.valueError)
  | some rkv =>
  let h := setattrV h "rake" (PyVal.dec rkv)
  match pyStrptime m.date with
  | none => (h, some PyErr.valueError)
  | some dt =>
  let h := setattrV h "date" (PyVal.date dt)
  match lookupTable GAMES m.game with
  | none => (h, some PyErr.keyError)
  | some gm =>
  let h := setattrV h "game" (PyVal.str gm)
  match lookupTable LIMITS m.limit with
  | none => (h, some PyErr.keyError)
  | some lim =>
  let h := setattrV h "limit" (PyVal.str lim)
  let h := setattrV h "number" (PyVal.str m.number)
  let h := setattrV h "tournament_ident" (PyVal.str m.tournament_ident)
  let h := setattrV h "tournament_level" (PyVal.str m.tournament_level)
  let h := setattrV h "currency" (PyVal.str m.currency)
  let h := setattrV h "header_parsed" (PyVal.pyBool true)
  (h, none)

/-- A concrete header match of the shape `_header_pattern` produces on a
well-formed PokerStars tournament header line. -/
def headerSample : HeaderMatch :=
  ⟨"PokerStars", "123", "Tournament", "456", "0.91", "0.09", "USD",
   "Hold'em", "No Limit", "I", "10", "20", "2013/10/04 13:22:07"⟩

theorem lookupAssoc_update (a : List (String × PyVal)) (k k' : String) (v : PyVal) :
    lookupAssoc (updateAssoc a k v) k' =
      if k = k' then some v else lookupAssoc a k' := by
  induction a with
  | nil => simp [updateAssoc, lookupAssoc]
  | cons p rest ih =>
    obtain ⟨pk, pv⟩ := p
    by_cases hpk : pk = k
    · subst hpk
      by_cases hk : pk = k' <;> simp [updateAssoc, lookupAssoc, hk]
    · by_cases hk' : pk = k' <;> by_cases hk : k = k' <;>
        simp_all [updateAssoc, lookupAssoc]

theorem getattrV_setattrV (h : PSHand) (k k' : String) (v : PyVal) :
    getattrV (setattrV h k v) k' =
      if k = k' then some v else getattrV h k' := by
  simp [getattrV, setattrV, lookupAssoc_update]

theorem lookupAssoc_filter (a : List (String × PyVal))
    (q : String × PyVal → Bool) (k' : String)
    (hq : ∀ v, q (k', v) = true) :
    lookupAssoc (a.filter q) k' = lookupAssoc a k' := by
  induction a with
  | nil => rfl
  | cons p rest ih =>
    obtain ⟨pk, pv⟩ := p
    rw [List.filter_cons]
    by_cases hq' : q (pk, pv) = true
    · rw [if_pos hq']
      by_cases hk' : pk = k' <;> simp [lookupAssoc, hk', ih]
    · rw [if_neg hq']
      have hk' : pk ≠ k' := fun hc => hq' (hc ▸ hq pv)
      simp [lookupAssoc, hk', ih]

theorem getattrV_delattrV (h : PSHand) (k k' : String) (hne : k' ≠ k) :
    getattrV (delattrV h k) k' = getattrV h k' := by
  unfold getattrV delattrV
  exact lookupAssoc_filter _ _ _ (fun v => by simp [hne])

theorem updateAssoc_idem (a : List (String × PyVal)) (k : String) (v : PyVal) :
    updateAssoc (updateAssoc a k v) k v = updateAssoc a k v := by
  induction a with
  | nil => simp [updateAssoc]
  | cons p rest ih =>
    obtain ⟨pk, pv⟩ := p
    by_cases hpk : pk = k
    · subst hpk
      simp [updateAssoc]
    · simp [updateAssoc, hpk, ih]

theorem setattrV_idem (h : PSHand) (k : String) (v : PyVal) :
    setattrV (setattrV h k v) k v = setattrV h k v := by
  simp [setattrV, updateAssoc_idem]

/-- Claim C1 (counterexample): a street whose marker is present but whose
captured action block contains no action lines (the captured group is the
bare newline before the next marker) resolves to exactly the same value,
`None`, as a street whose marker is wholly absent — the two outcomes are
not distinguishable. -/
theorem claim_C1_counterexample :
    parseStreet (some "\n") = parseStreet none ∧ parseStreet none = none :=
  ⟨by decide, rfl⟩

/-- Claim C1 (amended): an absent street marker resolves to `None`, and a
present marker with an empty (whitespace-only) captured block also
resolves to `None` — the same sentinel, not a distinct one; a nonempty
block resolves to the tuple of its stripped lines. -/
theorem claim_C1 (s : String) :
    parseStreet none = none ∧
    (pyStrip s = "" → parseStreet (some s) = none) ∧
    (pyStrip s ≠ "" → parseStreet (some s) = some (pySplitlines (pyStrip s))) := by
  refine ⟨rfl, ?_, ?_⟩ <;> intro hc <;> simp [parseStreet, hc]

/-- Claim C1 witness: a concrete nonempty flop action block. -/
theorem claim_C1_witness :
    pyStrip "a checks\nb bets 5" ≠ "" ∧
    parseStreet (some "a checks\nb bets 5") =
      some (pySplitlines (pyStrip "a checks\nb bets 5")) :=
  ⟨by decide, (claim_C1 "a checks\nb bets 5").2.2 (by decide)⟩

/-- Claim C5: a five-card board line decomposes into flop (first three
cards), turn (fourth) and river (fifth) whose concatenation reconstructs
the board in original order, and an absent board line leaves board, flop,
turn and river all `None`. -/
theorem claim_C5 (s : String) (h5 : (pySplit s).length = 5) :
    (searchBoard (some s)).board = some (pySplit s) ∧
    (∃ t r, (searchBoard (some s)).flop = some ((pySplit s).take 3) ∧
      (searchBoard (some s)).turn = some t ∧
      (searchBoard (some s)).river = some r ∧
      (pySplit s).take 3 ++ [t] ++ [r] = pySplit s) ∧
    searchBoard none = ⟨none, none, none, none⟩ := by
  rcases hl : pySplit s with _ | ⟨a, _ | ⟨b, _ | ⟨c, _ | ⟨d, _ | ⟨e, rest⟩⟩⟩⟩⟩ <;>
    rw [hl] at h5 <;> simp at h5
  subst h5
  refine ⟨?_, ⟨d, e, ?_, ?_, ?_, ?_⟩, rfl⟩ <;> simp [searchBoard, hl]

/-- Claim C5 witness: a concrete five-card board. -/
theorem claim_C5_witness :
    (searchBoard (some "Ah Kd Qc Js 9h")).board = some (pySplit "Ah Kd Qc Js 9h") ∧
    (∃ t r,
      (searchBoard (some "Ah Kd Qc Js 9h")).flop =
        some ((pySplit "Ah Kd Qc Js 9h").take 3) ∧
      (searchBoard (some "Ah Kd Qc Js 9h")).turn = some t ∧
      (searchBoard (some "Ah Kd Qc Js 9h")).river = some r ∧
      (pySplit "Ah Kd Qc Js 9h").take 3 ++ [t] ++ [r] = pySplit "Ah Kd Qc Js 9h") ∧
    searchBoard none = ⟨none, none, none, none⟩ :=
  claim_C5 "Ah Kd Qc Js 9h" (by decide)

theorem take_one_head {α : Type} (c : List α) : (c.take 1).head? = c.head? := by
  cases c <;> rfl

theorem setAdd_length (l : List String) (x : String) :
    (setAdd l x).length ≤ l.length + 1 := by
  unfold setAdd
  split <;> simp

/-- Claim C9: winner resolution uses only the first match of the
`collected` pattern and the first match of the summary showdown pattern,
so the winner collection has at most two entries and any further matches
of either pattern are ignored. -/
theorem claim_C9 (collected : List String) (summary : List (String × String)) :
    (searchWinners collected summary).length ≤ 2 ∧
    searchWinners collected summary =
      searchWinners (collected.take 1) (summary.take 1) := by
  constructor
  · unfold searchWinners
    cases hc : collected.head? <;> cases hs : summary.head? <;>
      simp [setAdd] <;> split <;> simp
  · unfold searchWinners
    rw [take_one_head, take_one_head]

/-- Claim C10: looking a record up at the key `raw` through the mapping
interface raises `KeyError`, while any other key naming an existing
attribute returns that attribute's value. -/
theorem claim_C10 (h : PSHand) (k : String) (v : PyVal) :
    getItem h "raw" = Except.error PyErr.keyError ∧
    (k ≠ "raw" → getattrV h k = some v → getItem h k = Except.ok v) := by
  constructor
  · simp [getItem]
  · intro hk hv
    simp [getItem, hk, hv]

/-- Claim C10 witness: on a freshly constructed record, `raw` raises
`KeyError` while the existing attribute `parsed` is returned. -/
theorem claim_C10_witness :
    getItem (initHand "x") "raw" = Except.error PyErr.keyError ∧
    getItem (initHand "x") "parsed" = Except.ok (PyVal.pyBool false) :=
  ⟨(claim_C10 (initHand "x") "parsed" (PyVal.pyBool false)).1,
   (claim_C10 (initHand "x") "parsed" (PyVal.pyBool false)).2 (by decide) rfl⟩

theorem length_setNth {α : Type} (l : List α) (n : Nat) (a : α) :
    (setNth l n a).length = l.length := by
  induction l generalizing n with
  | nil => rfl
  | cons x xs ih => cases n <;> simp [setNth, ih]

theorem get?_setNth {α : Type} (l : List α) (n k : Nat) (a : α)
    (hn : n < l.length) :
    (setNth l n a).get? k = if k = n then some a else l.get? k := by
  induction l generalizing n k with
  | nil => simp at hn
  | cons x xs ih =>
    cases n with
    | zero => cases k <;> simp [setNth]
    | succ m =>
      cases k with
      | zero => simp [setNth]
      | succ j =>
        have hn' : m < xs.length := by simpa using hn
        simp only [setNth, List.get?_cons_succ, ih m j hn']
        by_cases hj : j = m <;> simp [hj]

theorem searchPlayersGo_spec (seats : List (Nat × String × Int))
    (acc : List (String × Int))
    (hr : ∀ s ∈ seats, 1 ≤ s.1 ∧ s.1 ≤ acc.length) :
    ∃ res, searchPlayersGo acc seats = some res ∧ res.length = acc.length ∧
      ∀ k, res.get? k = (declaredAt seats (k + 1)).or (acc.get? k) := by
  induction seats generalizing acc with
  | nil => exact ⟨acc, rfl, rfl, fun k => by simp [declaredAt]⟩
  | cons s rest ih =>
    obtain ⟨n, p⟩ := s
    obtain ⟨hn1, hn2⟩ := hr _ (List.mem_cons_self _ _)
    have hassign : assignSeat acc n p = some (setNth acc (n - 1) p) := by
      simp [assignSeat, hn1, hn2]
    have hlen : (setNth acc (n - 1) p).length = acc.length := length_setNth _ _ _
    have hr' : ∀ s ∈ rest, 1 ≤ s.1 ∧ s.1 ≤ (setNth acc (n - 1) p).length := by
      rw [hlen]
      exact fun s hs => hr s (List.mem_cons_of_mem _ hs)
    obtain ⟨res, hres, hrl, hget⟩ := ih (setNth acc (n - 1) p) hr'
    refine ⟨res, ?_, by rw [hrl, hlen], ?_⟩
    · rw [searchPlayersGo, hassign]
      exact hres
    · intro k
      rw [hget k, get?_setNth _ _ _ _ (by omega : n - 1 < acc.length)]
      simp only [declaredAt]
      cases hd : declaredAt rest (k + 1) with
      | some q => simp
      | none =>
        by_cases hke : k = n - 1
        · have h2 : n = k + 1 := by omega
          rw [if_pos hke, h2]
          simp
        · have h2 : n ≠ k + 1 := by omega
          rw [if_neg hke, if_neg h2]
          simp

theorem length_initSeats (maxP : Nat) : (initSeats maxP).length = maxP := by
  simp [initSeats]

theorem get?_initSeats (maxP k : Nat) (hk : k < maxP) :
    (initSeats maxP).get? k = some (placeholderName (k + 1), 0) := by
  simp only [initSeats]
  rw [List.get?_map, List.get?_range hk]
  rfl

theorem pyDictItemsAux_eq_self (fuel : Nat) (l : List (String × Int))
    (hf : l.length ≤ fuel) (hnd : (l.map Prod.fst).Nodup) :
    pyDictItemsAux fuel l = l := by
  induction fuel generalizing l with
  | zero =>
    cases l with
    | nil => rfl
    | cons p rest => simp at hf
  | succ f ih =>
    cases l with
    | nil => rfl
    | cons p rest =>
      obtain ⟨pk, pv⟩ := p
      simp only [List.map_cons, List.nodup_cons] at hnd
      have hf1 : rest.filter (fun q => q.1 = pk) = [] := by
        apply List.filter_eq_nil.mpr
        intro q hq
        simp only [decide_eq_true_eq]
        intro hc
        exact hnd.1 (List.mem_map.mpr ⟨q, hq, hc⟩)
      have hf2 : rest.filter (fun q => !decide (q.1 = pk)) = rest := by
        apply List.filter_eq_self.mpr
        intro q hq
        simp only [Bool.not_eq_true', decide_eq_false_iff_not]
        intro hc
        exact hnd.1 (List.mem_map.mpr ⟨q, hq, hc⟩)
      have hflen : rest.length ≤ f := by simpa using hf
      simp [pyDictItemsAux, hf1, hf2, ih rest hflen hnd.2]

theorem pyDictItems_eq_self (l : List (String × Int))
    (hnd : (l.map Prod.fst).Nodup) : pyDictItems l = l :=
  pyDictItemsAux_eq_self l.length l (Nat.le_refl _) hnd

theorem pyIndex_mem (l : List String) (x : String) (hx : x ∈ l) :
    ∃ k, pyIndex l x = some k ∧ l.get? k = some x := by
  induction l with
  | nil => cases hx
  | cons a rest ih =>
    by_cases ha : a = x
    · exact ⟨0, by simp [pyIndex, ha], by simp [ha]⟩
    · have hx' : x ∈ rest := by
        rcases List.mem_cons.mp hx with h | h
        · exact absurd h.symm ha
        · exact h
      obtain ⟨k, hk1, hk2⟩ := ih hx'
      exact ⟨k + 1, by simp [pyIndex, ha, hk1], by simpa using hk2⟩

/-- Claim C2 (counterexample): with a 2-max table whose two declared
seats carry the same display name, the `OrderedDict` conversion collapses
the two entries into one, so the resolved layout has one entry, not
`max_players`. -/
theorem claim_C2_counterexample :
    searchPlayersList 2 [(1, "Alice", 10), (2, "Alice", 20)] =
      some [("Alice", 10), ("Alice", 20)] ∧
    pyDictItems [("Alice", 10), ("Alice", 20)] = [("Alice", 20)] ∧
    (pyDictItems [("Alice", 10), ("Alice", 20)]).length ≠ 2 := by
  refine ⟨?_, ?_, ?_⟩ <;> decide

/-- Claim C2 (amended): for an N-max table whose declared seats are all
in range 1..N, the seat-stage list has exactly N entries in seat order,
each undeclared seat holding the placeholder `Empty Seat n` with stack 0;
and provided the resolved display names are pairwise distinct, the
`OrderedDict` layout keeps all N entries in the same order. -/
theorem claim_C2 (maxP : Nat) (seats : List (Nat × String × Int))
    (hr : ∀ s ∈ seats, 1 ≤ s.1 ∧ s.1 ≤ maxP) :
    ∃ res, searchPlayersList maxP seats = some res ∧ res.length = maxP ∧
      (∀ k, k < maxP →
        res.get? k =
          some ((declaredAt seats (k + 1)).getD (placeholderName (k + 1), 0))) ∧
      ((res.map Prod.fst).Nodup →
        pyDictItems res = res ∧ (pyDictItems res).length = maxP) := by
  have hr' : ∀ s ∈ seats, 1 ≤ s.1 ∧ s.1 ≤ (initSeats maxP).length := by
    rw [length_initSeats]
    exact hr
  obtain ⟨res, h1, h2, h3⟩ := searchPlayersGo_spec seats (initSeats maxP) hr'
  rw [length_initSeats] at h2
  refine ⟨res, h1, h2, ?_, ?_⟩
  · intro k hk
    rw [h3 k, get?_initSeats _ _ hk]
    cases declaredAt seats (k + 1) <;> simp
  · intro hnd
    exact ⟨pyDictItems_eq_self res hnd,
           by rw [pyDictItems_eq_self res hnd, h2]⟩

/-- Claim C2 witness: a 3-max table with seats 1 and 3 declared; seat 2
is materialized as `Empty Seat 2` with stack 0 and all three entries
survive the `OrderedDict` conversion. -/
theorem claim_C2_witness :
    ∃ res, searchPlayersList 3 [(1, "laxi23", 100), (3, "Capricorn", 50)] =
        some res ∧ res.length = 3 ∧
      (∀ k, k < 3 →
        res.get? k =
          some ((declaredAt [(1, "laxi23", 100), (3, "Capricorn", 50)] (k + 1)).getD
            (placeholderName (k + 1), 0))) ∧
      ((res.map Prod.fst).Nodup →
        pyDictItems res = res ∧ (pyDictItems res).length = 3) :=
  claim_C2 3 [(1, "laxi23", 100), (3, "Capricorn", 50)] (by decide)

/-- Claim C3 (counterexample): with duplicate display names in earlier
seats, the `OrderedDict` key list is shorter than the seat list, so the
hero's derived seat number (2) differs from the seat (3) of the layout
entry whose display name is the hero's. -/
theorem claim_C3_counterexample :
    searchPlayersList 3 [(1, "Bob", 5), (2, "Bob", 6), (3, "Alice", 7)] =
      some [("Bob", 5), ("Bob", 6), ("Alice", 7)] ∧
    heroSeatCalc [("Bob", 5), ("Bob", 6), ("Alice", 7)] "Alice" = some 2 ∧
    [("Bob", 5), ("Bob", 6), ("Alice", 7)].get? (3 - 1) = some ("Alice", 7) ∧
    [("Bob", 5), ("Bob", 6), ("Alice", 7)].get? (2 - 1) = some ("Bob", 6) := by
  refine ⟨?_, ?_, ?_, ?_⟩ <;> decide

/-- Claim C3 (amended): provided the resolved display names are pairwise
distinct and the hero's name occurs among them, the derived hero seat
number `keys().index(hero) + 1` is the seat number of the layout entry
whose display name is the hero's. -/
theorem claim_C3 (ps : List (String × Int)) (hero : String)
    (hnd : (ps.map Prod.fst).Nodup) (hmem : hero ∈ ps.map Prod.fst) :
    ∃ k st, heroSeatCalc ps hero = some (k + 1) ∧ ps.get? k = some (hero, st) := by
  have hkeys : pyDictKeys ps = ps.map Prod.fst := by
    unfold pyDictKeys
    rw [pyDictItems_eq_self ps hnd]
  obtain ⟨k, hk1, hk2⟩ := pyIndex_mem (ps.map Prod.fst) hero hmem
  rw [List.get?_map] at hk2
  cases hps : ps.get? k with
  | none => rw [hps] at hk2; cases hk2
  | some pr =>
    rw [hps] at hk2
    have hpr : pr.1 = hero := by
      simpa using hk2
    refine ⟨k, pr.2, ?_, ?_⟩
    · unfold heroSeatCalc
      rw [hkeys, hk1]
      rfl
    · rw [hps, ← hpr]

/-- Claim C3 witness: hero `Walkman` in seat 2 of a two-entry layout. -/
theorem flagsCleared_setItem (h : PSHand) (k : String) (v : PyVal)
    (h1 : k ≠ "header_parsed") (h2 : k ≠ "parsed") :
    flagsCleared (setItem h k v) := by
  have e1 : ("parsed" : String) ≠ "header_parsed" := by decide
  unfold flagsCleared setItem
  refine ⟨?_, ?_⟩ <;> simp [getattrV_setattrV, h1, h2, e1]

theorem flagsCleared_delItem (h : PSHand) (k : String)
    (h1 : k ≠ "header_parsed") (h2 : k ≠ "parsed") :
    flagsCleared (delItem h k) := by
  have e1 : ("parsed" : String) ≠ "header_parsed" := by decide
  unfold flagsCleared delItem
  constructor
  · rw [getattrV_delattrV _ _ _ (Ne.symm h1)]
    simp [getattrV_setattrV, e1]
  · rw [getattrV_delattrV _ _ _ (Ne.symm h2)]
    simp [getattrV_setattrV]

theorem flagsCleared_applyMut (h : PSHand) (m : Mut)
    (hm : mutKey m ≠ "header_parsed" ∧ mutKey m ≠ "parsed") :
    flagsCleared (applyMut h m) := by
  cases m with
  | set k v => exact flagsCleared_setItem h k v hm.1 hm.2
  | del k => exact flagsCleared_delItem h k hm.1 hm.2

theorem flagsCleared_applyMuts (h : PSHand) (ms : List Mut)
    (h0 : flagsCleared h)
    (hms : ∀ m ∈ ms, mutKey m ≠ "header_parsed" ∧ mutKey m ≠ "parsed") :
    flagsCleared (applyMuts h ms) := by
  induction ms generalizing h with
  | nil => exact h0
  | cons m rest ih =>
    exact ih (applyMut h m)
      (flagsCleared_applyMut h m (hms m (List.mem_cons_self _ _)))
      (fun m' hm' => hms m' (List.mem_cons_of_mem _ hm'))

/-- Claim C4 (counterexample): setting the field `parsed` itself to
`True` through the mapping interface on a fully resolved record leaves
the fully-parsed flag `True`: the assignment performed after the flags
are cleared overwrites the flag again, so the flags are not both false
after every mapping mutation. -/
theorem claim_C4_counterexample :
    getattrV
      (setItem
        (setattrV (setattrV (initHand "x") "header_parsed" (PyVal.pyBool true))
          "parsed" (PyVal.pyBool true))
        "parsed" (PyVal.pyBool true)) "parsed" = some (PyVal.pyBool true) ∧
    some (PyVal.pyBool true) ≠ some (PyVal.pyBool false) := by
  refine ⟨?_, ?_⟩ <;> decide

/-- Claim C4 (amended): setting or deleting any field other than the two
resolution flags themselves sets both `header_parsed` and `parsed` to
false, and they stay false under any further mapping mutations that do
not target the flag attributes (only re-invoking resolution sets them
back). -/
theorem claim_C4 (h : PSHand) (k : String) (v : PyVal) (ms : List Mut)
    (h1 : k ≠ "header_parsed") (h2 : k ≠ "parsed")
    (hms : ∀ m ∈ ms, mutKey m ≠ "header_parsed" ∧ mutKey m ≠ "parsed") :
    flagsCleared (applyMuts (setItem h k v) ms) ∧
    flagsCleared (applyMuts (delItem h k) ms) :=
  ⟨flagsCleared_applyMuts _ ms (flagsCleared_setItem h k v h1 h2) hms,
   flagsCleared_applyMuts _ ms (flagsCleared_delItem h k h1 h2) hms⟩

/-- Claim C4 witness: a concrete record, mutation and follow-up
mutation. -/
theorem claim_C4_witness :
    flagsCleared (applyMuts (setItem (initHand "x") "total_pot" (PyVal.pyInt 5))
      [Mut.set "hero" (PyVal.str "W")]) ∧
    flagsCleared (applyMuts (delItem (initHand "x") "total_pot")
      [Mut.set "hero" (PyVal.str "W")]) :=
  claim_C4 (initHand "x") "total_pot" (PyVal.pyInt 5)
    [Mut.set "hero" (PyVal.str "W")] (by decide) (by decide) (by decide)

/-- Claim C6 (counterexample): the internal resolution-state flags
`header_parsed` and `parsed` are enumerated by `keys()` (here on a record
where no resolution has completed at all), so the enumeration does not
exclude the resolution-state flags. -/
theorem claim_C6_counterexample :
    "header_parsed" ∈ keysOf (initHand "x") ∧
    "parsed" ∈ keysOf (initHand "x") := by
  refine ⟨?_, ?_⟩ <;> decide

/-- Claim C6 (amended): enumerating keys yields every attribute of the
record except the raw transcript and underscore-prefixed names; the
resolution-state flags are included, as the concrete header-resolved
record shows. -/
theorem claim_C6 :
    (∀ (h : PSHand) (k : String),
      k ∈ keysOf h ↔
        k ∈ h.attrs.map Prod.fst ∧ ¬ startsUnderscore k = true ∧ k ≠ "raw") ∧
    keysOf (parse_header (initHand "t") headerSample).1 =
      ["header_parsed", "parsed", "poker_room", "game_type", "sb", "bb",
       "buyin", "rake", "date", "game", "limit", "number",
       "tournament_ident", "tournament_level", "currency"] := by
  constructor
  · intro h k
    simp [keysOf, List.mem_filter, and_assoc]
  · decide

/-- Claim C7: when the header pattern matches (which structurally forces
the room token `PokerStars`, the type token `Tournament` and the limit
token `No Limit`) but a game, limit or room token is missing from the
enumeration tables, header resolution raises `KeyError` (the
unknown-enumeration failure), the `header_parsed` flag is left untouched,
and the unrecognized game token is never stored on the record. -/
theorem claim_C7 (h : PSHand) (m : HeaderMatch)
    (dsb dbb dbi drk : String) (dt : PyDateTime)
    (hroom : m.poker_room = "PokerStars")
    (htype : m.game_type = "Tournament")
    (hlimit : m.limit = "No Limit")
    (hsb : pyDecimal m.sb = some dsb) (hbb : pyDecimal m.bb = some dbb)
    (hbi : pyDecimal m.buyin = some dbi) (hrk : pyDecimal m.rake = some drk)
    (hdt : pyStrptime m.date = some dt)
    (hunknown : lookupTable GAMES m.game = none ∨
      lookupTable POKER_ROOMS m.poker_room = none ∨
      lookupTable LIMITS m.limit = none) :
    (parse_header h m).2 = some PyErr.keyError ∧
    getattrV (parse_header h m).1 "header_parsed" = getattrV h "header_parsed" ∧
    getattrV (parse_header h m).1 "game" = getattrV h "game" := by
  have hgame : lookupTable GAMES m.game = none := by
    rcases hunknown with hg | hr | hl
    · exact hg
    · rw [hroom] at hr
      exact absurd hr (by decide)
    · rw [hlimit] at hl
      exact absurd hl (by decide)
  have hne : ("Hold'em" : String) ≠ m.game := by
    intro hc
    rw [← hc] at hgame
    exact absurd hgame (by decide)
  refine ⟨?_, ?_, ?_⟩ <;>
    simp [parse_header, lookupTable, hroom, htype, hsb, hbb, hbi, hrk, hdt,
      hne, getattrV_setattrV]

/-- Claim C7 witness: a structurally valid header carrying the game token
`Omaha`, which is not in the `GAMES` table. -/
theorem claim_C7_witness :
    (parse_header (initHand "x")
        ⟨"PokerStars", "123", "Tournament", "456", "0.91", "0.09", "USD",
         "Omaha", "No Limit", "I", "10", "20", "2013/10/04 13:22:07"⟩).2 =
      some PyErr.keyError ∧
    getattrV (parse_header (initHand "x")
        ⟨"PokerStars", "123", "Tournament", "456", "0.91", "0.09", "USD",
         "Omaha", "No Limit", "I", "10", "20", "2013/10/04 13:22:07"⟩).1
        "header_parsed" = getattrV (initHand "x") "header_parsed" ∧
    getattrV (parse_header (initHand "x")
        ⟨"PokerStars", "123", "Tournament", "456", "0.91", "0.09", "USD",
         "Omaha", "No Limit", "I", "10", "20", "2013/10/04 13:22:07"⟩).1
        "game" = getattrV (initHand "x") "game" :=
  claim_C7 (initHand "x")
    ⟨"PokerStars", "123", "Tournament", "456", "0.91", "0.09", "USD",
     "Omaha", "No Limit", "I", "10", "20", "2013/10/04 13:22:07"⟩
    "10" "20" "0.91" "0.09" ⟨2013, 10, 4, 13, 22, 7⟩
    rfl rfl rfl rfl rfl rfl rfl rfl (Or.inl rfl)

/-- Claim C8: winner resolution is idempotent as a record update
(re-running the stage on the unchanged raw text stores the same winner
tuple), and a player named by the first match of both the `collected`
pattern and the summary showdown pattern appears exactly once in the
resolved winners. -/
theorem claim_C8 (h : PSHand) (collected : List String)
    (summary : List (String × String)) (n seatStr : String) :
    searchWinnersStage (searchWinnersStage h collected summary) collected
        summary =
      searchWinnersStage h collected summary ∧
    (collected.head? = some n → summary.head? = some (seatStr, n) →
      (searchWinners collected summary).count n = 1) := by
  constructor
  · unfold searchWinnersStage
    exact setattrV_idem _ _ _
  · intro hc hs
    unfold searchWinners
    rw [hc, hs]
    show (setAdd (setAdd [] n) seatStr).count n = 1
    by_cases hss : seatStr = n
    · simp [setAdd, hss]
    · have hns : n ≠ seatStr := fun hx => hss hx.symm
      simp [setAdd, hss, hns, List.count_cons]

/-- Claim C8 witness: the winner `barly123` named both by a `collected`
line and by the summary showdown line for seat 3. -/
theorem claim_C8_witness :
    searchWinnersStage
        (searchWinnersStage (initHand "x") ["barly123"] [("3", "barly123")])
        ["barly123"] [("3", "barly123")] =
      searchWinnersStage (initHand "x") ["barly123"] [("3", "barly123")] ∧
    (searchWinners ["barly123"] [("3", "barly123")]).count "barly123" = 1 :=
  ⟨(claim_C8 (initHand "x") ["barly123"] [("3", "barly123")] "barly123" "3").1,
   (claim_C8 (initHand "x") ["barly123"] [("3", "barly123")] "barly123" "3").2
     rfl rfl⟩

theorem claim_C3_witness :
    ∃ k st,
      heroSeatCalc (([("laxi23", 100), ("Walkman", 50)] : List (String × Int)))
          "Walkman" = some (k + 1) ∧
      (([("laxi23", 100), ("Walkman", 50)] : List (String × Int))).get? k =
        some ("Walkman", st) :=
  claim_C3 [("laxi23", 100), ("Walkman", 50)] "Walkman" (by decide) (by decide)

end HandParser
